import Mathlib

/-!
Verification of the orchestration logic of `vite-plugin-node-red`
(`src/plugin.ts`), shallowly embedded in Lean. The plugin's hooks
(`config`, `transformIndexHtml`, `writeBundle`, `closeBundle`) are
modelled as pure functions over explicit state: the filesystem view
of the nodes root, the incoming Vite config fragment, the bundle
entries, and the plugin options. String operations mirror the
JavaScript semantics used by the source (first-occurrence `replace`,
global regex replacement, `endsWith`, `path.parse(...).name`).
-/

namespace VPNR

/-- `leadsWith pat l` is true when `pat` is an initial segment of `l`
(the anchored test a regex engine performs at a single position). -/
def leadsWith : List Char → List Char → Bool
  | [], _ => true
  | _ :: _, [] => false
  | p :: ps, c :: cs => p == c && leadsWith ps cs

/-- `hasSub pat l` is true when `pat` occurs as a contiguous run
anywhere in `l`. -/
def hasSub (pat : List Char) : List Char → Bool
  | [] => leadsWith pat []
  | c :: cs => leadsWith pat (c :: cs) || hasSub pat cs

/-- JavaScript `String.prototype.replace` with a plain-string pattern:
replace only the first occurrence of `pat` by `rep`. -/
def replaceFirstAux (pat rep : List Char) : List Char → List Char
  | [] => []
  | c :: cs =>
    if leadsWith pat (c :: cs) then rep ++ (c :: cs).drop pat.length
    else c :: replaceFirstAux pat rep cs

def replaceFirstStr (s pat rep : String) : String :=
  String.mk (replaceFirstAux pat.data rep.data s.data)

/-- `trailsWith pat l`: `l` ends with `pat` (JavaScript `endsWith`). -/
def trailsWith (pat l : List Char) : Bool :=
  l.drop (l.length - pat.length) == pat

def endsWithStr (s pat : String) : Bool :=
  trailsWith pat.data s.data

/-- Characters after the last `/` of a path (POSIX basename). -/
def afterLastSlash (l : List Char) : List Char :=
  l.foldl (fun acc c => if c = '/' then [] else acc ++ [c]) []

/-- Index of the last `.` in a character list, if any. -/
def lastDotIdx (l : List Char) : Option Nat :=
  (l.foldl (fun (acc : Option Nat × Nat) c =>
    (if c = '.' then some acc.2 else acc.1, acc.2 + 1)) (none, 0)).1

/-- Node.js `path.parse(base).name` on a basename: everything before the
last dot, except that a dot in first position (dotfile) is kept. -/
def stemOfChars (b : List Char) : List Char :=
  match lastDotIdx b with
  | some i => if i = 0 then b else b.take i
  | none => b

/-- Node.js `path.parse(fileName).name`: basename without its extension. -/
def parseNodeName (s : String) : String :=
  String.mk (stemOfChars (afterLastSlash s.data))

/-- Node.js `path.join` restricted to the already-normalized paths the
plugin produces. -/
def joinPath (a b : String) : String := a ++ "/" ++ b

/-! ## The asset path rewriter (`transformIndexHtml`) -/

/-- The pattern the source's regex
`(src|href)="\/resources\/` matches when the alternative is `src`. -/
def srcPat : List Char := "src=\"/resources/".data

/-- The pattern matched when the alternative is `href`. -/
def hrefPat : List Char := "href=\"/resources/".data

/-- One global left-to-right regex-replacement scan, as JavaScript
`html.replace(re, ...)` performs with the `g` flag: at each position try
the pattern; on a match, emit the replacement and resume after the
matched text (replaced output is not rescanned). `fuel` bounds the scan
and is instantiated with the input length, which each step decreases. -/
def rewriteAux (pkg : String) : Nat → List Char → List Char
  | 0, l => l
  | _ + 1, [] => []
  | fuel + 1, c :: cs =>
    if leadsWith srcPat (c :: cs) then
      ("src=\"/resources/" ++ pkg ++ "/").data ++
        rewriteAux pkg fuel ((c :: cs).drop srcPat.length)
    else if leadsWith hrefPat (c :: cs) then
      ("href=\"/resources/" ++ pkg ++ "/").data ++
        rewriteAux pkg fuel ((c :: cs).drop hrefPat.length)
    else c :: rewriteAux pkg fuel cs

/-- The plugin's `transformIndexHtml` hook: replaces every
`src="/resources/` or `href="/resources/` with
`src="/resources/<packageName>/` (resp. `href=`), `packageName` being the
resolved package name. -/
def transformIndexHtml (packageName : String) (html : String) : String :=
  String.mk (rewriteAux packageName html.data.length html.data)

/-- The package name `transformIndexHtml` uses: the reference
package.json's name when one was loaded, else the `packageName` option. -/
def resolvePackageName (refName : Option String) (optName : String) : String :=
  match refName with
  | some n => n
  | none => optName

/-! ## Plugin options and the `config` hook -/

/-- The object form of the `packageJson` option. -/
structure PackageJsonOpts where
  path : String
  copyPackageName : Bool
  copyDependencies : Bool
deriving DecidableEq

/-- The `packageJson` option: `false`, or an options object. -/
inductive PackageJsonSetting
  | disabled
  | enabled (o : PackageJsonOpts)
deriving DecidableEq

/-- The plugin options after merging with the defaults
(`buildNodeJsFiles` is handled separately by the `closeBundle` model). -/
structure PluginOptions where
  nodesDirectory : String
  packageName : String
  packageJson : PackageJsonSetting
  silent : Bool
deriving DecidableEq

/-- The Vite command under which the plugin runs. -/
inductive Command | build | serve
deriving DecidableEq

/-- One entry of a directory listing, as `fs.readdir` with
`withFileTypes` returns it. -/
structure Dirent where
  name : String
  isDirectory : Bool
  isFile : Bool
deriving DecidableEq

/-- The part of the filesystem the `config` hook reads: the resolved
nodes root (existence, kind, listing) and the listing of each of its
subdirectories. -/
structure NodesFS where
  rootExists : Bool
  rootIsDirectory : Bool
  rootEntries : List Dirent
  subdirEntries : List (String × List Dirent)
deriving DecidableEq

/-- `fs.readdir` of a subdirectory of the nodes root. -/
def lookupEntries (fs : NodesFS) (d : String) : List Dirent :=
  match fs.subdirEntries.find? (fun p => p.1 == d) with
  | some p => p.2
  | none => []

/-- The subdirectory names of the nodes root, as the hook computes them
(directory dirents only). -/
def subdirsOf (fs : NodesFS) : List String :=
  (fs.rootEntries.filter (fun d => d.isDirectory)).map (fun d => d.name)

/-- The errors the plugin throws, plus the `fs.stat` failure that
propagates out of the `config` hook when the nodes root is missing. -/
inductive PluginError
  | serveMode
  | statFailed
  | notDirectory
  | noSubdirectories
  | assetsDirConflict
  | noPackageName
deriving DecidableEq

/-- The data of the `UserConfig` the `config` hook returns, plus the
runtime-logic paths pushed onto `nodeJsFiles` and the names of the
units warned about. -/
structure ConfigResult where
  assetsDir : String
  input : List (String × String)
  nodeJsFiles : List String
  warnings : List String
deriving DecidableEq

/-- JavaScript object-key assignment `m[k] = v` on an insertion-ordered
record: update in place when the key exists, else append. -/
def setKey (m : List (String × String)) (k v : String) : List (String × String) :=
  if m.any (fun p => p.1 == k) then
    m.map (fun p => if p.1 == k then (k, v) else p)
  else m ++ [(k, v)]

/-- The body of the `config` hook's per-subdirectory loop: accumulates
the `nodes` entry map, the `nodeJsFiles` list and the warning list.
Mirrors the source exactly: the warning is only diagnostic — the unit is
added to both outputs whether or not its required files exist. -/
def scanStep (opts : PluginOptions) (fs : NodesFS)
    (acc : List (String × String) × List String × List String)
    (subdir : String) : List (String × String) × List String × List String :=
  let files := ((lookupEntries fs subdir).filter (fun d => d.isFile)).map (fun d => d.name)
  let missing := !files.contains (subdir ++ ".html") ||
    (!files.contains (subdir ++ ".ts") && !files.contains (subdir ++ ".js"))
  let warnings := if missing && !opts.silent then acc.2.2 ++ [subdir] else acc.2.2
  let nodes := setKey acc.1 subdir
    (joinPath (joinPath opts.nodesDirectory subdir) (subdir ++ ".html"))
  let njs := acc.2.1 ++
    [if files.contains (subdir ++ ".ts") then
        joinPath (joinPath opts.nodesDirectory subdir) (subdir ++ ".ts")
      else joinPath (joinPath opts.nodesDirectory subdir) (subdir ++ ".js")]
  (nodes, njs, warnings)

/-- The plugin's `config` hook. `cfgAssetsDir` is
`config.build?.assetsDir` from the surrounding project configuration
(`none` when unset). Returns `none` when the hook returns `null`
(no `nodesDirectory`), else the synthesized config data. -/
def configHook (opts : PluginOptions) (command : Command)
    (cfgAssetsDir : Option String) (fs : NodesFS) :
    Except PluginError (Option ConfigResult) :=
  if command = Command.serve then Except.error PluginError.serveMode
  else if opts.nodesDirectory = "" then Except.ok none
  else if !fs.rootExists then Except.error PluginError.statFailed
  else if !fs.rootIsDirectory then Except.error PluginError.notDirectory
  else
    let subdirs := subdirsOf fs
    if subdirs = [] then Except.error PluginError.noSubdirectories
    else
      let res := subdirs.foldl (scanStep opts fs) ([], [], [])
      let conflict := match cfgAssetsDir with
        | some d => d != "" && d != "resources"
        | none => false
      if !opts.silent && conflict then Except.error PluginError.assetsDirConflict
      else Except.ok (some (ConfigResult.mk "resources" res.1 res.2.1 res.2.2))

/-! ## The `writeBundle` hook (manifest emitter) -/

/-- The fields the plugin reads from the reference `package.json`. -/
structure RefPackageJson where
  name : String
  dependencies : Option (List (String × String))
  devDependencies : Option (List (String × String))
deriving DecidableEq

/-- The `type` discriminator of a Rollup bundle entry. -/
inductive BundleEntryType | asset | chunk
deriving DecidableEq, BEq

/-- A Rollup bundle entry as `writeBundle` inspects it. -/
structure BundleEntry where
  type : BundleEntryType
  fileName : String
deriving DecidableEq

/-- The generated manifest (`SimplePackageJson` in the source);
`nodes` is the `node-red.nodes` record in insertion order, `dependencies`
and `devDependencies` are `none` when the field is absent. -/
structure SimplePackageJson where
  name : String
  version : String
  dependencies : Option (List (String × String))
  devDependencies : Option (List (String × String))
  nodes : List (String × String)
deriving DecidableEq

/-- Whether a bundle entry is an emitted asset whose name ends in
`.html` (the source's inline condition). -/
def isHtmlAsset (e : BundleEntry) : Bool :=
  e.type == BundleEntryType.asset && endsWithStr e.fileName ".html"

/-- One step of the `writeBundle` loop over the bundle: record
`nodes[path.parse(fileName).name] = fileName.replace(".html", ".js")`
for `.html` assets, leave other entries alone. -/
def addNode (m : List (String × String)) (e : BundleEntry) : List (String × String) :=
  if isHtmlAsset e then
    setKey m (parseNodeName e.fileName) (replaceFirstStr e.fileName ".html" ".js")
  else m

/-- The `node-red.nodes` record `writeBundle` builds from the bundle. -/
def nodesMapOf (bundle : List BundleEntry) : List (String × String) :=
  bundle.foldl addNode []

/-- The manifest-construction part of the `writeBundle` hook. Returns
`ok none` when `packageJson` is `false` (hook returns early), the error
the source throws, or the manifest it would serialize and write. -/
def writeBundlePkg (opts : PluginOptions) (ref : Option RefPackageJson)
    (bundle : List BundleEntry) : Except PluginError (Option SimplePackageJson) :=
  match opts.packageJson with
  | PackageJsonSetting.disabled => Except.ok none
  | PackageJsonSetting.enabled pjOpts =>
    let base : SimplePackageJson :=
      SimplePackageJson.mk opts.packageName "1.0.0" none none []
    let named : Except PluginError SimplePackageJson :=
      match ref with
      | none => Except.ok base
      | some r =>
        let n : Except PluginError SimplePackageJson :=
          if pjOpts.copyPackageName then
            Except.ok (SimplePackageJson.mk r.name base.version none none [])
          else if opts.packageName = "" then
            Except.error PluginError.noPackageName
          else Except.ok base
        n.map (fun p =>
          if pjOpts.copyDependencies then
            SimplePackageJson.mk p.name p.version
              (some (r.dependencies.getD []))
              (some (r.devDependencies.getD [])) p.nodes
          else p)
    named.map (fun p =>
      some (SimplePackageJson.mk p.name p.version p.dependencies
        p.devDependencies (nodesMapOf bundle)))

/-! ## The `closeBundle` hook (runtime-build orchestrator) -/

/-- The `output` part of the Rollup options the second build receives. -/
structure RollupOutputCfg where
  format : Option String
  preserveModules : Option Bool
  preserveModulesRoot : Option String
deriving DecidableEq

/-- The Rollup options of a Vite build config, with `input` as an
ordered list of entry paths. -/
structure RollupOptionsCfg where
  input : Option (List String)
  output : Option RollupOutputCfg
deriving DecidableEq

/-- The `build` section of a Vite config, restricted to the fields the
plugin forces plus a representative user-controlled field (`minify`). -/
structure BuildCfg where
  emptyOutDir : Option Bool
  ssr : Option Bool
  outDir : Option String
  minify : Option Bool
  rollupOptions : Option RollupOptionsCfg
deriving DecidableEq

/-- The `ssr` section of a Vite config. -/
structure SsrCfg where
  target : Option String
deriving DecidableEq

/-- A Vite config, restricted to the fields the plugin forces plus a
representative user-controlled field (`mode`). -/
structure ViteCfg where
  configFile : Option Bool
  mode : Option String
  ssr : Option SsrCfg
  build : Option BuildCfg
deriving DecidableEq

def emptyRollupOutputCfg : RollupOutputCfg := RollupOutputCfg.mk none none none

def emptyRollupOptionsCfg : RollupOptionsCfg := RollupOptionsCfg.mk none none

def emptyBuildCfg : BuildCfg := BuildCfg.mk none none none none none

def emptyViteCfg : ViteCfg := ViteCfg.mk none none none none

/-- `lodash.merge` on a leaf field: a defined source value wins, an
undefined one leaves the destination value. -/
def mergeLeaf {α : Type} (dst src : Option α) : Option α :=
  match src with
  | some v => some v
  | none => dst

/-- `lodash.merge` on two arrays of primitives: element-wise, the source
element wins at each index and destination elements beyond the source's
length survive. -/
def mergeArray (dst src : List String) : List String :=
  src ++ dst.drop src.length

/-- `lodash.merge` on an optional array field. -/
def mergeInputOpt (dst src : Option (List String)) : Option (List String) :=
  match dst, src with
  | some d, some s => some (mergeArray d s)
  | none, some s => some s
  | some d, none => some d
  | none, none => none

/-- `lodash.merge` on an optional nested-object field, given the merge
of the object type. -/
def mergeSub {α : Type} (m : α → α → α) (dst src : Option α) : Option α :=
  match dst, src with
  | some d, some s => some (m d s)
  | none, some s => some s
  | some d, none => some d
  | none, none => none

def mergeRollupOutput (dst src : RollupOutputCfg) : RollupOutputCfg :=
  RollupOutputCfg.mk (mergeLeaf dst.format src.format)
    (mergeLeaf dst.preserveModules src.preserveModules)
    (mergeLeaf dst.preserveModulesRoot src.preserveModulesRoot)

def mergeRollupOptions (dst src : RollupOptionsCfg) : RollupOptionsCfg :=
  RollupOptionsCfg.mk (mergeInputOpt dst.input src.input)
    (mergeSub mergeRollupOutput dst.output src.output)

def mergeBuild (dst src : BuildCfg) : BuildCfg :=
  BuildCfg.mk (mergeLeaf dst.emptyOutDir src.emptyOutDir)
    (mergeLeaf dst.ssr src.ssr)
    (mergeLeaf dst.outDir src.outDir)
    (mergeLeaf dst.minify src.minify)
    (mergeSub mergeRollupOptions dst.rollupOptions src.rollupOptions)

def mergeSsr (dst src : SsrCfg) : SsrCfg :=
  SsrCfg.mk (mergeLeaf dst.target src.target)

/-- `lodash.merge` over the modelled Vite config shape. -/
def mergeViteCfg (dst src : ViteCfg) : ViteCfg :=
  ViteCfg.mk (mergeLeaf dst.configFile src.configFile)
    (mergeLeaf dst.mode src.mode)
    (mergeSub mergeSsr dst.ssr src.ssr)
    (mergeSub mergeBuild dst.build src.build)

/-- The forced second-build configuration `pluginViteConfig` the source
constructs in `closeBundle`; `pmRoot` stands for the computed
`preserveModulesRoot` path. -/
def pluginViteConfig (nodeJsFiles : List String) (outDir pmRoot : String) : ViteCfg :=
  ViteCfg.mk (some false) none
    (some (SsrCfg.mk (some "node")))
    (some (BuildCfg.mk (some false) (some true) (some outDir) none
      (some (RollupOptionsCfg.mk (some nodeJsFiles)
        (some (RollupOutputCfg.mk (some "cjs") (some true) (some pmRoot)))))))

/-- The config `closeBundle` passes to the second `viteBuild` when
`buildNodeJsFiles` is a configuration object `u`:
`merge(u, pluginViteConfig)`. -/
def closeBundleConfig (u : ViteCfg) (nodeJsFiles : List String)
    (outDir pmRoot : String) : ViteCfg :=
  mergeViteCfg u (pluginViteConfig nodeJsFiles outDir pmRoot)

/-- The `build.rollupOptions.input` of a config, `none` when any level
is absent. -/
def cfgInput (c : ViteCfg) : Option (List String) :=
  ((c.build.getD emptyBuildCfg).rollupOptions.getD emptyRollupOptionsCfg).input

instance {ε α : Type} [DecidableEq ε] [DecidableEq α] : DecidableEq (Except ε α) := fun
  | Except.error a, Except.error b =>
    if h : a = b then isTrue (by rw [h]) else isFalse (by simp [h])
  | Except.error _, Except.ok _ => isFalse (by simp)
  | Except.ok _, Except.error _ => isFalse (by simp)
  | Except.ok a, Except.ok b =>
    if h : a = b then isTrue (by rw [h]) else isFalse (by simp [h])

/-! ## Concrete fixtures used by the claim theorems -/

/-- The default plugin options of the source (`defaultOptions`). -/
def defaultPluginOptions : PluginOptions :=
  PluginOptions.mk "nodes" ""
    (PackageJsonSetting.enabled (PackageJsonOpts.mk "package.json" true true)) false

/-- A nodes root holding a single subdirectory `beta` whose only file is
`beta.html` — an invalid unit (no `beta.ts` / `beta.js`). -/
def fsBetaOnlyHtml : NodesFS :=
  NodesFS.mk true true [Dirent.mk "beta" true false]
    [("beta", [Dirent.mk "beta.html" false true])]

/-- A nodes root holding a single valid unit `alpha`
(`alpha.html` and `alpha.ts` both present). -/
def fsAlphaValid : NodesFS :=
  NodesFS.mk true true [Dirent.mk "alpha" true false]
    [("alpha", [Dirent.mk "alpha.html" false true, Dirent.mk "alpha.ts" false true])]

/-- A nodes-root path whose `fs.stat` fails (path does not exist). -/
def fsMissingRoot : NodesFS := NodesFS.mk false false [] []

/-- The default options with `silent := true`. -/
def silentPluginOptions : PluginOptions :=
  PluginOptions.mk "nodes" ""
    (PackageJsonSetting.enabled (PackageJsonOpts.mk "package.json" true true)) true

/-- The reference descriptor of the round-trip property:
`{name:"pkg-a", dependencies:{"x":"1.0.0"}}`. -/
def refPkgA : RefPackageJson :=
  RefPackageJson.mk "pkg-a" (some [("x", "1.0.0")]) none

/-- Default options with `copyDependencies := false`. -/
def noCopyDepsOptions : PluginOptions :=
  PluginOptions.mk "nodes" ""
    (PackageJsonSetting.enabled (PackageJsonOpts.mk "package.json" true false)) false

/-- Options under which no reference package.json is loaded
(`packageJson.path` empty) while `copyPackageName` is `true` and no
explicit `packageName` is configured. -/
def noRefOptions : PluginOptions :=
  PluginOptions.mk "nodes" ""
    (PackageJsonSetting.enabled (PackageJsonOpts.mk "" true true)) false

/-- A user-supplied second-build configuration carrying an `input` array
longer than the recorded `nodeJsFiles`, plus unforced fields. -/
def userCfgTwoInputs : ViteCfg :=
  ViteCfg.mk none (some "production") none
    (some (BuildCfg.mk (some true) none (some "other") (some true)
      (some (RollupOptionsCfg.mk (some ["u1.ts", "u2.ts"]) none))))

/-- The UI-definition extension as a character pattern. -/
def patHtml : List Char := ".html".data

/-- The logic-file extension as a character pattern. -/
def patJs : List Char := ".js".data

/-- `.html` occurs in `s` only as its final extension: `s` ends with
`.html` and no other occurrence exists (every occurrence other than the
final one lies inside the first `length - 1` characters). -/
def htmlOnlyAtEnd (s : String) : Bool :=
  trailsWith patHtml s.data && !(hasSub patHtml (s.data.take (s.data.length - 1)))

/-- The unit identities (filename stems) of the `.html` assets of a
bundle, in bundle order. -/
def stemsOf (bundle : List BundleEntry) : List String :=
  (bundle.filter isHtmlAsset).map (fun e => parseNodeName e.fileName)

/-- Modelled from the spec's description of the emitter: one
`node-red.nodes` entry per emitted `.html` asset, keyed by the filename
stem and valued by the fileName with its final `.html` extension
replaced by `.js` — to be compared against the map the code builds. -/
def predictedNodes (bundle : List BundleEntry) : List (String × String) :=
  (bundle.filter isHtmlAsset).map (fun e =>
    (parseNodeName e.fileName,
      String.mk (e.fileName.data.take (e.fileName.data.length - 5) ++ patJs)))

/-! ## Supporting lemmas -/

lemma leadsWith_ex (p l : List Char) : leadsWith p l = true ↔ ∃ r, l = p ++ r := by
  induction p generalizing l with
  | nil => simp [leadsWith]
  | cons a as ih =>
    cases l with
    | nil => simp [leadsWith]
    | cons c cs =>
      simp only [leadsWith, Bool.and_eq_true, beq_iff_eq, ih, List.cons_append,
        List.cons.injEq]
      constructor
      · rintro ⟨hac, r, hr⟩; exact ⟨r, hac.symm, hr⟩
      · rintro ⟨r, hca, hr⟩; exact ⟨hca.symm, r, hr⟩

lemma trailsWith_ex (p l : List Char) : trailsWith p l = true ↔ ∃ t, l = t ++ p := by
  unfold trailsWith
  constructor
  · intro h
    have he : l.drop (l.length - p.length) = p := by simpa using h
    refine ⟨l.take (l.length - p.length), ?_⟩
    conv_lhs => rw [← List.take_append_drop (l.length - p.length) l]
    rw [he]
  · rintro ⟨t, rfl⟩
    have hlen : (t ++ p).length - p.length = t.length := by simp
    rw [hlen, List.drop_left]
    simp

lemma leadsWith_take {p l : List Char} (n : Nat) (h : leadsWith p l = true)
    (hn : p.length ≤ n) : leadsWith p (l.take n) = true := by
  obtain ⟨r, rfl⟩ := (leadsWith_ex p l).mp h
  rw [List.take_append_eq_append_take, List.take_of_length_le hn]
  exact (leadsWith_ex p _).mpr ⟨_, rfl⟩

lemma hasSub_of_leadsWith {p l : List Char} (h : leadsWith p l = true) :
    hasSub p l = true := by
  cases l with
  | nil => simpa [hasSub] using h
  | cons c cs => simp [hasSub, h]

lemma rfa_only_end (t : List Char)
    (h : hasSub patHtml ((t ++ patHtml).take (t.length + 4)) = false) :
    replaceFirstAux patHtml patJs (t ++ patHtml) = t ++ patJs := by
  induction t with
  | nil => decide
  | cons c t' ih =>
    simp only [List.length_cons, List.cons_append] at h ⊢
    rw [show ((c :: (t' ++ patHtml)).take (t'.length + 1 + 4)) =
        c :: ((t' ++ patHtml).take (t'.length + 4)) from List.take_succ_cons] at h
    simp only [hasSub, Bool.or_eq_false_iff] at h
    cases hlw0 : leadsWith patHtml (c :: (t' ++ patHtml)) with
    | true =>
      exfalso
      have h5 : patHtml.length ≤ t'.length + 4 + 1 := by
        have he : patHtml.length = 5 := by decide
        omega
      have h2 := leadsWith_take (t'.length + 4 + 1) hlw0 h5
      rw [show ((c :: (t' ++ patHtml)).take (t'.length + 4 + 1)) =
          c :: ((t' ++ patHtml).take (t'.length + 4)) from List.take_succ_cons] at h2
      rw [h.1] at h2
      exact Bool.false_ne_true h2
    | false =>
      simp only [replaceFirstAux, hlw0, Bool.false_eq_true, if_false]
      exact congrArg (List.cons c) (ih h.2)

lemma replaceFirst_html (s : String) (h : htmlOnlyAtEnd s = true) :
    replaceFirstStr s ".html" ".js" =
      String.mk (s.data.take (s.data.length - 5) ++ patJs) := by
  have hrw : replaceFirstStr s ".html" ".js" =
      String.mk (replaceFirstAux patHtml patJs s.data) := rfl
  rw [hrw]
  simp only [htmlOnlyAtEnd, Bool.and_eq_true, Bool.not_eq_true'] at h
  obtain ⟨h1, h2⟩ := h
  obtain ⟨t, ht⟩ := (trailsWith_ex patHtml s.data).mp h1
  rw [ht] at h2 ⊢
  have hpl : patHtml.length = 5 := by decide
  have hlen1 : (t ++ patHtml).length - 1 = t.length + 4 := by
    simp [hpl]
  rw [hlen1] at h2
  rw [rfa_only_end t h2]
  have hlen5 : (t ++ patHtml).length - 5 = t.length := by
    simp [hpl]
  rw [hlen5, List.take_left]

lemma setKey_append (m : List (String × String)) (k v : String)
    (h : ∀ p ∈ m, p.1 ≠ k) : setKey m k v = m ++ [(k, v)] := by
  have hc : ¬ (m.any (fun p => p.1 == k) = true) := by
    simp only [List.any_eq_true, beq_iff_eq]
    rintro ⟨p, hp, he⟩
    exact h p hp he
  unfold setKey
  rw [if_neg hc]

lemma nodesFold_append (bundle : List BundleEntry) (m : List (String × String))
    (h1 : ∀ e ∈ bundle, isHtmlAsset e = true → htmlOnlyAtEnd e.fileName = true)
    (h2 : (stemsOf bundle).Nodup)
    (h3 : ∀ p ∈ m, ∀ k ∈ stemsOf bundle, p.1 ≠ k) :
    bundle.foldl addNode m = m ++ predictedNodes bundle := by
  induction bundle generalizing m with
  | nil => simp [predictedNodes]
  | cons e rest ih =>
    rw [List.foldl_cons]
    by_cases ha : isHtmlAsset e = true
    · have hstem : stemsOf (e :: rest) = parseNodeName e.fileName :: stemsOf rest := by
        simp [stemsOf, List.filter_cons, ha]
      have hpred : predictedNodes (e :: rest) =
          (parseNodeName e.fileName,
            String.mk (e.fileName.data.take (e.fileName.data.length - 5) ++ patJs)) ::
            predictedNodes rest := by
        simp [predictedNodes, List.filter_cons, ha]
      have hkm : ∀ p ∈ m, p.1 ≠ parseNodeName e.fileName := by
        intro p hp
        exact h3 p hp _ (by rw [hstem]; exact List.mem_cons_self _ _)
      have hstep : addNode m e = m ++ [(parseNodeName e.fileName,
          String.mk (e.fileName.data.take (e.fileName.data.length - 5) ++ patJs))] := by
        unfold addNode
        rw [if_pos ha, setKey_append m _ _ hkm,
          replaceFirst_html e.fileName (h1 e (List.mem_cons_self _ _) ha)]
      have hhead : parseNodeName e.fileName ∉ stemsOf rest :=
        (List.nodup_cons.mp (hstem ▸ h2)).1
      have h2' : (stemsOf rest).Nodup := (List.nodup_cons.mp (hstem ▸ h2)).2
      have h3' : ∀ p ∈ m ++ [(parseNodeName e.fileName,
          String.mk (e.fileName.data.take (e.fileName.data.length - 5) ++ patJs))],
          ∀ k ∈ stemsOf rest, p.1 ≠ k := by
        intro p hp k hk
        rcases List.mem_append.mp hp with hpm | hpx
        · exact h3 p hpm k (by rw [hstem]; exact List.mem_cons_of_mem _ hk)
        · have hpe : p.1 = parseNodeName e.fileName := by
            have hpeq : p = (parseNodeName e.fileName,
                String.mk (e.fileName.data.take (e.fileName.data.length - 5) ++ patJs)) := by
              simpa using hpx
            rw [hpeq]
          rw [hpe]
          intro heq
          exact hhead (heq ▸ hk)
      rw [hstep, hpred, ih (m ++ [(parseNodeName e.fileName,
        String.mk (e.fileName.data.take (e.fileName.data.length - 5) ++ patJs))])
        (fun e' he' hae' => h1 e' (List.mem_cons_of_mem _ he') hae') h2' h3']
      simp
    · have ha' : isHtmlAsset e = false := by simpa using ha
      have hstep : addNode m e = m := by simp [addNode, ha']
      have hstem : stemsOf (e :: rest) = stemsOf rest := by
        simp [stemsOf, List.filter_cons, ha']
      have hpred : predictedNodes (e :: rest) = predictedNodes rest := by
        simp [predictedNodes, List.filter_cons, ha']
      rw [hstep, hpred]
      exact ih m (fun e' he' hae' => h1 e' (List.mem_cons_of_mem _ he') hae')
        (by rw [hstem] at h2; exact h2)
        (fun p hp k hk => h3 p hp k (by rw [hstem]; exact hk))

/-! ## Claim theorems -/

/-- Claim C10: whenever the host bundler's command is `serve`, the
`config` hook fails with the serve-mode error immediately — for every
option set, surrounding config and filesystem state, so in particular
before any directory scanning takes place. -/
theorem c10_serve_always_rejected (opts : PluginOptions)
    (cfgAssetsDir : Option String) (fs : NodesFS) :
    configHook opts Command.serve cfgAssetsDir fs =
      Except.error PluginError.serveMode := rfl

/-- Claim C1 (failure witness): on a nodes root whose only subdirectory
`beta` lacks its runtime-logic file, the `config` hook still returns
`beta` both in the bundler entry map and in the recorded `nodeJsFiles`
list, while also recording the validation warning for `beta` — the
invalid unit is warned about ("Skipping.") but not skipped. -/
theorem c1_invalid_unit_still_emitted :
    configHook defaultPluginOptions Command.build none fsBetaOnlyHtml =
      Except.ok (some (ConfigResult.mk "resources"
        [("beta", "nodes/beta/beta.html")] ["nodes/beta/beta.js"] ["beta"])) := by
  decide

/-- Claim C2 (failure witness): the rewriter is not idempotent — its
pattern matches any `src="/resources/` prefix, not only the duplicated
form, so a second application inserts the package name again. -/
theorem c2_rewrite_not_idempotent :
    transformIndexHtml "pkg-a"
        (transformIndexHtml "pkg-a" "src=\"/resources/nodes/resources/x.js\"") ≠
      transformIndexHtml "pkg-a" "src=\"/resources/nodes/resources/x.js\"" := by
  decide

/-- Claim C3 (failure witness): on
`src="/resources/nodes/resources/x.js"` with package name `pkg-a` the
rewriter inserts `pkg-a/` after the first `/resources/` instead of
collapsing the duplicated segment, so the output differs from the
claimed `src="/resources/pkg-a/x.js"`. -/
theorem c3_rewrite_does_not_collapse :
    transformIndexHtml "pkg-a" "src=\"/resources/nodes/resources/x.js\"" =
        "src=\"/resources/pkg-a/nodes/resources/x.js\"" ∧
      transformIndexHtml "pkg-a" "src=\"/resources/nodes/resources/x.js\"" ≠
        "src=\"/resources/pkg-a/x.js\"" := by
  constructor
  · decide
  · decide

/-- Claim C7: round-trip of reference metadata. Under default options
the manifest emitted for the reference descriptor
`{name:"pkg-a", dependencies:{"x":"1.0.0"}}` has name `pkg-a`, version
`1.0.0`, the reference's dependencies, and an empty dev-dependency map
(the reference has none); with `copyDependencies` disabled both
dependency maps are omitted. -/
theorem c7_reference_round_trip :
    writeBundlePkg defaultPluginOptions (some refPkgA) [] =
        Except.ok (some (SimplePackageJson.mk "pkg-a" "1.0.0"
          (some [("x", "1.0.0")]) (some []) [])) ∧
      writeBundlePkg noCopyDepsOptions (some refPkgA) [] =
        Except.ok (some (SimplePackageJson.mk "pkg-a" "1.0.0" none none [])) := by
  constructor
  · decide
  · decide

/-- Claim C4 (counterexample): with no explicit package name, no
reference package.json loaded and `copyPackageName` left `true`,
`writeBundle` does not fail — it produces a manifest whose `name` is the
empty string, because the missing-name check sits inside the
reference-loaded branch. -/
theorem c4_counterexample :
    writeBundlePkg noRefOptions none [] =
      Except.ok (some (SimplePackageJson.mk "" "1.0.0" none none [])) := by
  decide

/-- Claim C5 (counterexample): `fileName.replace(".html", ".js")`
replaces the first occurrence of `.html`, not the extension: the bundle
asset `a.html.html` is recorded as `a.js.html`, not the claimed
`a.html.js`. -/
theorem c5_counterexample :
    nodesMapOf [BundleEntry.mk BundleEntryType.asset "a.html.html"] =
        [("a.html", "a.js.html")] ∧
      ("a.js.html" : String) ≠ "a.html.js" := by
  constructor
  · decide
  · decide

/-- Claim C6 (counterexample): `lodash.merge` combines arrays
element-wise, so a user-supplied `input` array longer than the recorded
runtime-logic path list leaks its extra entries into the merged config:
with `nodeJsFiles = [n1.ts]` and user input `[u1.ts, u2.ts]` the second
build's input is `[n1.ts, u2.ts]`, not `[n1.ts]`. -/
theorem c6_counterexample :
    cfgInput (closeBundleConfig userCfgTwoInputs ["n1.ts"] "dist" "root") =
        some ["n1.ts", "u2.ts"] ∧
      (some ["n1.ts", "u2.ts"] : Option (List String)) ≠ some ["n1.ts"] := by
  constructor
  · decide
  · decide

/-- Claim C8 (counterexample): with `silent` enabled, a surrounding
config that sets `build.assetsDir` to `assets` (≠ `resources`) does not
raise the ConfigurationError — the check lives inside the non-silent
branch, so the hook succeeds. -/
theorem c8_counterexample :
    configHook silentPluginOptions Command.build (some "assets") fsAlphaValid =
      Except.ok (some (ConfigResult.mk "resources"
        [("alpha", "nodes/alpha/alpha.html")] ["nodes/alpha/alpha.ts"] [])) := by
  decide

/-- Options with `copyPackageName := false` and no explicit name. -/
def noCopyNameOptions : PluginOptions :=
  PluginOptions.mk "nodes" ""
    (PackageJsonSetting.enabled (PackageJsonOpts.mk "package.json" false true)) false

/-- Claim C9: for every configured nodes root, a missing root path, a
root that is not a directory, and a root without immediate
subdirectories each fail the `config` hook with the corresponding
error, while a root that exists, is a directory and has at least one
subdirectory never produces any of those scan errors. -/
theorem c9_scan_error_contract (opts : PluginOptions) (cfgAssetsDir : Option String)
    (fs : NodesFS) (hnd : opts.nodesDirectory ≠ "") :
    (fs.rootExists = false →
      configHook opts Command.build cfgAssetsDir fs =
        Except.error PluginError.statFailed) ∧
    (fs.rootExists = true → fs.rootIsDirectory = false →
      configHook opts Command.build cfgAssetsDir fs =
        Except.error PluginError.notDirectory) ∧
    (fs.rootExists = true → fs.rootIsDirectory = true → subdirsOf fs = [] →
      configHook opts Command.build cfgAssetsDir fs =
        Except.error PluginError.noSubdirectories) ∧
    (fs.rootExists = true → fs.rootIsDirectory = true → subdirsOf fs ≠ [] →
      configHook opts Command.build cfgAssetsDir fs ≠
          Except.error PluginError.statFailed ∧
        configHook opts Command.build cfgAssetsDir fs ≠
          Except.error PluginError.notDirectory ∧
        configHook opts Command.build cfgAssetsDir fs ≠
          Except.error PluginError.noSubdirectories) := by
  refine ⟨?_, ?_, ?_, ?_⟩
  · intro h; simp [configHook, hnd, h]
  · intro h1 h2; simp [configHook, hnd, h1, h2]
  · intro h1 h2 h3; simp [configHook, hnd, h1, h2, h3]
  · intro h1 h2 h3
    refine ⟨?_, ?_, ?_⟩ <;>
      (simp [configHook, hnd, h1, h2, h3]; split <;> simp)

/-- Witness for C9 at a concrete input: a nonexistent nodes root fails
with the stat error. -/
theorem c9_scan_error_contract_witness :
    configHook defaultPluginOptions Command.build none fsMissingRoot =
      Except.error PluginError.statFailed :=
  (c9_scan_error_contract defaultPluginOptions none fsMissingRoot (by decide)).1 rfl

/-- Claim C4 (amended): the missing-package-name ConfigurationError is
raised exactly when a reference package.json was loaded,
`copyPackageName` is false and the explicit name is empty; when no
reference manifest was loaded, `writeBundle` does not fail — it emits
the manifest with the configured (possibly empty) `packageName`. -/
theorem c4_name_resolution_amended (opts : PluginOptions) (pj : PackageJsonOpts)
    (r : RefPackageJson) (bundle : List BundleEntry)
    (hpj : opts.packageJson = PackageJsonSetting.enabled pj) :
    (writeBundlePkg opts (some r) bundle = Except.error PluginError.noPackageName ↔
      pj.copyPackageName = false ∧ opts.packageName = "") ∧
    (∃ p, writeBundlePkg opts none bundle = Except.ok (some p) ∧
      p.name = opts.packageName) := by
  constructor
  · constructor
    · intro h
      by_cases hc : pj.copyPackageName <;>
        by_cases hn : opts.packageName = "" <;>
        simp [writeBundlePkg, hpj, hc, hn, Except.map] at h ⊢
    · rintro ⟨hc, hn⟩
      simp [writeBundlePkg, hpj, hc, hn, Except.map]
  · exact ⟨SimplePackageJson.mk opts.packageName "1.0.0" none none (nodesMapOf bundle),
      by simp [writeBundlePkg, hpj, Except.map], rfl⟩

/-- Witness for C4 (amended) at a concrete input: with a loaded
reference, `copyPackageName` false and empty name, the hook fails. -/
theorem c4_name_resolution_amended_witness :
    writeBundlePkg noCopyNameOptions (some refPkgA) [] =
      Except.error PluginError.noPackageName :=
  (c4_name_resolution_amended noCopyNameOptions
    (PackageJsonOpts.mk "package.json" false true) refPkgA [] rfl).1.mpr ⟨rfl, rfl⟩

/-- Claim C8 (amended): the silent flag suppresses the assetsDir
ConfigurationError along with the diagnostics — under `silent` the hook
can never fail with the assetsDir conflict — while every other error of
the hook is raised or not raised identically for both values of
`silent`. -/
theorem c8_silent_scope_amended (opts : PluginOptions) (command : Command)
    (cfgAssetsDir : Option String) (fs : NodesFS) :
    (opts.silent = true →
      configHook opts command cfgAssetsDir fs ≠
        Except.error PluginError.assetsDirConflict) ∧
    (∀ e : PluginError, e ≠ PluginError.assetsDirConflict →
      (configHook { opts with silent := true } command cfgAssetsDir fs =
          Except.error e ↔
        configHook { opts with silent := false } command cfgAssetsDir fs =
          Except.error e)) := by
  constructor
  · intro hs
    simp only [configHook, hs, Bool.not_true, Bool.false_and]
    split <;> try simp
    split <;> try simp
    split <;> try simp
    split <;> try simp
    split <;> simp
  · intro e he
    simp only [configHook]
    simp only [Bool.not_true, Bool.not_false, Bool.false_and, Bool.true_and]
    split <;> try simp
    split <;> try simp
    split <;> try simp
    split <;> try simp
    split <;> try simp
    intro h
    split at h
    · exact he (Except.error.inj h).symm
    · simp at h

/-- Witness for C8 (amended) at a concrete input: under the silent
options, an `assets` assetsDir does not raise the conflict error. -/
theorem c8_silent_scope_amended_witness :
    configHook silentPluginOptions Command.build (some "assets") fsAlphaValid ≠
      Except.error PluginError.assetsDirConflict :=
  (c8_silent_scope_amended silentPluginOptions Command.build (some "assets")
    fsAlphaValid).1 rfl

/-- Claim C6 (amended): for every user-supplied second-build
configuration object the merged config forces `configFile := false`,
`ssr.target = "node"`, `build.emptyOutDir = false`, `build.ssr = true`,
`build.outDir` = pass 1's output directory, output format `cjs` with
`preserveModules` (one file per input), and preserves unforced user
fields (`mode`, `build.minify`); the `input` array, however, is the
index-wise lodash merge: the recorded runtime-logic paths followed by
any user-supplied input entries beyond their length (so it equals the
recorded paths only when the user supplies no longer array). -/
theorem c6_forced_settings_amended (u : ViteCfg) (njs : List String) (od pr : String) :
    (closeBundleConfig u njs od pr).configFile = some false ∧
    (closeBundleConfig u njs od pr).mode = u.mode ∧
    (closeBundleConfig u njs od pr).ssr = some (SsrCfg.mk (some "node")) ∧
    ∃ b, (closeBundleConfig u njs od pr).build = some b ∧
      b.emptyOutDir = some false ∧ b.ssr = some true ∧ b.outDir = some od ∧
      b.minify = (u.build.getD emptyBuildCfg).minify ∧
      ∃ ro, b.rollupOptions = some ro ∧
        ro.input = some (njs ++ ((cfgInput u).getD []).drop njs.length) ∧
        ∃ o, ro.output = some o ∧ o.format = some "cjs" ∧
          o.preserveModules = some true ∧ o.preserveModulesRoot = some pr := by
  obtain ⟨cf, mo, ss, bu⟩ := u
  refine ⟨rfl, rfl, ?_, ?_⟩
  · cases ss <;> rfl
  · rcases bu with _ | ⟨eo, bssr, bod, mi, ro⟩
    · refine ⟨_, rfl, rfl, rfl, rfl, rfl, _, rfl, ?_, _, rfl, rfl, rfl, rfl⟩
      simp [cfgInput, emptyBuildCfg, emptyRollupOptionsCfg]
    · rcases ro with _ | ⟨inp, out⟩
      · refine ⟨_, rfl, rfl, rfl, rfl, rfl, _, rfl, ?_, _, rfl, rfl, rfl, rfl⟩
        simp [cfgInput, emptyRollupOptionsCfg]
      · rcases out with _ | ⟨f, pm, pmr⟩ <;> rcases inp with _ | d <;>
          refine ⟨_, rfl, rfl, rfl, rfl, rfl, _, rfl, ?_, _, rfl, rfl, rfl, rfl⟩ <;>
          simp [cfgInput, mergeRollupOptions, mergeInputOpt, mergeArray, mergeSub,
            mergeLeaf, emptyRollupOptionsCfg]

/-- Claim C5 (amended): for every bundle whose `.html` assets carry
`.html` only as their final extension and have pairwise distinct
filename stems, `writeBundle` records in `node-red.nodes` exactly one
entry per `.html` asset — keyed by its stem and valued by the fileName
with the final `.html` replaced by `.js` — and no other keys, already
during pass 1. (Without the only-as-extension proviso the code replaces
the first occurrence of `.html`, not the extension; see the
counterexample.) -/
theorem c5_nodes_map_amended (bundle : List BundleEntry)
    (h1 : ∀ e ∈ bundle, isHtmlAsset e = true → htmlOnlyAtEnd e.fileName = true)
    (h2 : (stemsOf bundle).Nodup) :
    nodesMapOf bundle = predictedNodes bundle := by
  simpa [nodesMapOf] using nodesFold_append bundle [] h1 h2 (by simp)

/-- Witness for C5 (amended) at a concrete bundle: the `alpha` unit's
UI asset yields the single entry `alpha ↦ alpha/alpha.js`, and the
non-asset chunk contributes nothing. -/
theorem c5_nodes_map_amended_witness :
    nodesMapOf [BundleEntry.mk BundleEntryType.asset "alpha/alpha.html",
      BundleEntry.mk BundleEntryType.chunk "resources/alpha-1.js"] =
      [("alpha", "alpha/alpha.js")] := by
  rw [c5_nodes_map_amended _ (by decide) (by decide)]
  decide

end VPNR
